import Mathlib

/-!
Verification of the gptui chat engine (package `chat` / `rest` of imfing/gptui).

The definitions below are a shallow embedding of the Go source:

* `pkg/rest` (rest.Client, ClientOption, NewClient, WithTimeout, WithBaseURL);
* `pkg/chat/api.go` (OpenAI API types, Client, NewChatClient, CreateCompletion
  including its server-sent-events scanner loop);
* the current chat TUI (Model, Model.Update, newCompletionRequest,
  createCompletionCmd, waitEventsCmd, Model.saveHistory, Model.loadHistory).

Modelling conventions:

* Go strings are Lean `String`s (sequences of Unicode scalar values).
* Durations are `Nat` nanoseconds; `http.Client.Timeout = 0` (the zero value,
  meaning "no timeout") is modelled as the value `0`.
* The Bubble Tea update loop is modelled per message type as a pure function
  from the model plus the message to the new model and the list of issued
  commands/effects.  Purely visual state (viewport, textarea, spinner,
  renderer, help, width/height) is omitted: no claim concerns it.
* Go run-time panics (nil dereference, index out of range) are modelled by an
  explicit `panicked` outcome; they are never silently dropped.
* External library calls (HTTP transport, JSON decoding of response bodies)
  enter as explicit arguments carrying their results, so that theorems can
  quantify over every possible outcome of the environment.
-/

/-- Message mirrors the Go struct `Message {Role, Content string}`
(src/pkg/chat/api.go). -/
structure Message where
  role : String
  content : String
deriving Repr, DecidableEq

/-- CompletionRequest mirrors `CompletionRequest {Model string; Messages []Message;
Stream bool}` (src/pkg/chat/api.go). -/
structure CompletionRequest where
  model : String
  messages : List Message
  stream : Bool := false
deriving Repr, DecidableEq

/-- CompletionChoice mirrors `CompletionChoice {Index int; Message Message;
FinishReason string}` (src/pkg/chat/api.go); the index field is never read. -/
structure CompletionChoice where
  message : Message
  finishReason : String := ""
deriving Repr, DecidableEq

/-- CompletionResponse mirrors the Go struct of the same name; only the choices
are ever consumed by the engine. -/
structure CompletionResponse where
  choices : List CompletionChoice
deriving Repr, DecidableEq

/-- CompletionStreamDelta mirrors `CompletionStreamDelta {Role, Content string}`. -/
structure CompletionStreamDelta where
  role : String := ""
  content : String := ""
deriving Repr, DecidableEq

/-- CompletionStreamChoice mirrors `CompletionStreamChoice {Index int;
Delta CompletionStreamDelta; FinishReason string}`. -/
structure CompletionStreamChoice where
  delta : CompletionStreamDelta := {}
  finishReason : String := ""
deriving Repr, DecidableEq

/-- CompletionStreamResponse mirrors the Go struct of the same name. -/
structure CompletionStreamResponse where
  choices : List CompletionStreamChoice
deriving Repr, DecidableEq

/-- RestClient mirrors `rest.Client` (pkg/rest): an `http.Client` plus a base
URL.  Of the wrapped `http.Client` only the `Timeout` field is ever configured;
`0` is Go's zero value meaning "no timeout". -/
structure RestClient where
  timeout : Nat := 0
  baseURL : String := ""
deriving Repr, DecidableEq

/-- ClientOption mirrors `rest.ClientOption = func(*Client)`. -/
def ClientOption : Type := RestClient → RestClient

/-- NewClient mirrors `rest.NewClient`: the zero-valued client with every
option applied in order. -/
def NewClient (opts : List ClientOption) : RestClient :=
  opts.foldl (fun c opt => opt c) { timeout := 0, baseURL := "" }

/-- WithTimeout mirrors `rest.WithTimeout`: sets the timeout of the wrapped
`http.Client`. -/
def WithTimeout (timeout : Nat) : ClientOption :=
  fun c => { c with timeout := timeout }

/-- WithBaseURL mirrors `rest.WithBaseURL`. -/
def WithBaseURL (baseURL : String) : ClientOption :=
  fun c => { c with baseURL := baseURL }

/-- timeMinute is Go's `time.Minute` in nanoseconds. -/
def timeMinute : Nat := 60000000000

/-- Client mirrors the chat `Client` struct: the rest client, model id, stream
flag, bearer token, optional system prompt and the conversation history.  The
`events` channel is not a field here; deliveries on it are modelled as the
event lists returned by the functions below.  (The `system` field is the one
read by the current TUI's `newCompletionRequest`.) -/
structure Client where
  httpClient : RestClient := {}
  model : String
  stream : Bool
  token : String
  system : String := ""
  history : List Message
deriving Repr, DecidableEq

/-- NewChatClient mirrors `NewChatClient` (src/pkg/chat/api.go): builds the
rest client with the base URL and a fixed one-minute timeout, and an empty
history. -/
def NewChatClient (baseURL token model : String) (stream : Bool) : Client :=
  { httpClient := NewClient [WithBaseURL baseURL, WithTimeout timeMinute]
    model := model
    stream := stream
    token := token
    history := [] }

/-- GoOutcome models the observable result of running a Go function that
returns `(value, error)` but may also panic at run time. -/
inductive GoOutcome (α : Type) where
  | ok : α → GoOutcome α
  | err : String → GoOutcome α
  | panicked : GoOutcome α
deriving Repr, DecidableEq

/-- HttpResponse models the `*http.Response` handed back by the transport:
the status code and the body, viewed both as a whole (what `io.ReadAll`
returns) and as the list of lines the `bufio.Scanner` yields. -/
structure HttpResponse where
  statusCode : Nat
  bodyText : String := ""
  bodyLines : List String := []
deriving Repr, DecidableEq

/-- httpErrorMsg is the error the non-200 branch of `Client.CreateCompletion`
builds with `fmt.Errorf("status code: %d, body: %s", ...)`. -/
def httpErrorMsg (status : Nat) (body : String) : String :=
  "status code: " ++ toString status ++ ", body: " ++ body

/-- isSpaceChar is `unicode.IsSpace` restricted to the ASCII whitespace
characters (space, tab, newline, vertical tab, form feed, carriage return),
the ones `strings.TrimSpace` can meet in a server-sent-events line. -/
def isSpaceChar (c : Char) : Bool :=
  c = ' ' ∨ c = '\t' ∨ c = '\n' ∨ c = '\x0b' ∨ c = '\x0c' ∨ c = '\r'

/-- trimSpace is `strings.TrimSpace`: leading and trailing whitespace
removed. -/
def trimSpace (s : String) : String :=
  ⟨((s.data.dropWhile isSpaceChar).reverse.dropWhile isSpaceChar).reverse⟩

/-- hasDataMarker is `strings.HasPrefix(line, "data:")`. -/
def hasDataMarker (l : String) : Bool :=
  match l.data with
  | 'd' :: 'a' :: 't' :: 'a' :: ':' :: _ => true
  | _ => false

/-- dropMarker is `strings.TrimPrefix(line, "data:")` on a line known to carry
the marker: the five marker characters removed. -/
def dropMarker (l : String) : String :=
  ⟨l.data.drop 5⟩

/-- processStreamLines is the scanner loop at the end of
`Client.CreateCompletion` (src/pkg/chat/api.go): each body line starting with
the literal `data:` is trimmed of the prefix and surrounding whitespace; the
sentinel `[DONE]` breaks out of the loop, any other payload is JSON-decoded
(the decoder enters as the argument `decode`, standing for `json.Unmarshal`)
and the event is sent on the events channel; a decode failure returns that
error at once.  The result is the list of events sent on the channel, in
order, together with the decode error that aborted the stream, if any. -/
def processStreamLines (decode : String → Except String CompletionStreamResponse) :
    List String → List CompletionStreamResponse × Option String
  | [] => ([], none)
  | line :: rest =>
    if hasDataMarker line then
      let data := trimSpace (dropMarker line)
      if data = "[DONE]" then
        ([], none)
      else
        match decode data with
        | .error e => ([], some e)
        | .ok ev =>
          let (events, aborted) := processStreamLines decode rest
          (ev :: events, aborted)
    else
      processStreamLines decode rest

/-- createCompletion is `Client.CreateCompletion` (src/pkg/chat/api.go) from
the point where the HTTP exchange finishes.  `doResult` is what
`c.httpClient.Do(req)` returned (`.error` for a transport failure, in which
case Go's `resp` is nil); `decodeResp` and `decodeStream` stand for
`json.Unmarshal` on the body and on one stream event.  The value is the
function's Go outcome paired with the stream events sent on the channel.

Faithful detail: the source runs `defer resp.Body.Close()` BEFORE checking
`err`; when `Do` fails, `resp` is nil and evaluating `resp.Body` dereferences
a nil pointer, so the call panics instead of returning the error. -/
def createCompletion (c : Client) (doResult : Except String HttpResponse)
    (decodeResp : String → Except String CompletionResponse)
    (decodeStream : String → Except String CompletionStreamResponse) :
    GoOutcome (Option CompletionResponse) × List CompletionStreamResponse :=
  match doResult with
  | .error _ => (.panicked, [])
  | .ok resp =>
    if resp.statusCode ≠ 200 then
      (.err (httpErrorMsg resp.statusCode resp.bodyText), [])
    else if ¬ c.stream then
      match decodeResp resp.bodyText with
      | .error e => (.err e, [])
      | .ok ret => (.ok (some ret), [])
    else
      match processStreamLines decodeStream resp.bodyLines with
      | (events, some e) => (.err e, events)
      | (events, none) => (.ok none, events)

/-- authErrorMsg is the missing-API-key error message used by the chat package
(`"OpenAI API key is not set. Please set it with the --openai-api-key flag"`). -/
def authErrorMsg : String :=
  "OpenAI API key is not set. Please set it with the --openai-api-key flag"

/-- Modelled from the spec: the current chat client's `CreateCompletion` --
the revision whose `Client` carries the `system` field and whose constructor
`NewChatClient(baseURL, token, model, system, stream)` is the one the current
TUI calls -- is not among the packaged sources (the packaged api.go is an
older snapshot with a four-argument constructor).  Per the spec it "fails with
`AuthError` if no token configured before any network call is attempted", so
this model guards `createCompletion` with that token check and otherwise
behaves as the packaged body. -/
def createCompletionChecked (c : Client) (doResult : Except String HttpResponse)
    (decodeResp : String → Except String CompletionResponse)
    (decodeStream : String → Except String CompletionStreamResponse) :
    GoOutcome (Option CompletionResponse) × List CompletionStreamResponse :=
  if c.token.length = 0 then
    (.err authErrorMsg, [])
  else
    createCompletion c doResult decodeResp decodeStream

/-- Effect models what one `Model.Update` transition emits besides the new
model: the `tea.Cmd`s it queues (`createCompletionCmd`, `waitEventsCmd`) and
the direct history-file write (`Model.saveHistory`). -/
inductive Effect where
  | createCompletion (req : CompletionRequest)
  | waitEvents
  | saveHistory
deriving Repr, DecidableEq

/-- Model mirrors the current TUI `Model` struct, keeping the fields the
conversation logic reads and writes (client, streamDeltas, sessionId,
multiline, waiting, err); the purely visual fields are omitted. -/
structure Model where
  client : Client
  streamDeltas : String := ""
  sessionId : String := ""
  multiline : Bool := false
  waiting : Bool := false
  err : Option String := none
deriving Repr, DecidableEq

/-- newCompletionRequest mirrors `newCompletionRequest(client, message)` of the
current TUI: a system message is included only when one is configured and the
client's history is empty at the time of the call, followed by the new user
message; the existing history is not included (the source carries a TODO for
that). -/
def newCompletionRequest (client : Client) (message : String) : CompletionRequest :=
  let messages : List Message :=
    if client.system.length > 0 ∧ client.history.length = 0 then
      [{ role := "system", content := client.system }]
    else
      []
  { model := client.model
    messages := messages ++ [{ role := "user", content := message }] }

/-- sendKey is the `keys.Send` branch of `Model.Update`: unless in multi-line
mode or already waiting, it appends the user message to the client's history,
builds the request from the (already updated) client, queues the completion
command plus -- in streaming mode -- one wait-for-event command, and sets
`waiting`.  `input` is the textarea value. -/
def sendKey (m : Model) (input : String) : Model × List Effect :=
  if ¬ m.multiline ∧ ¬ m.waiting then
    let client :=
      { m.client with history := m.client.history ++ [{ role := "user", content := input }] }
    let req := newCompletionRequest client input
    let effects :=
      [Effect.createCompletion req] ++ (if client.stream then [Effect.waitEvents] else [])
    ({ m with client := client, waiting := true }, effects)
  else
    (m, [])

/-- stepCompletionResponse is the `case CompletionResponse` branch of
`Model.Update`: it reads `msg.Choices[0]` (an index-out-of-range panic when
there are no choices), clears `waiting` and appends the first choice's message
to the history; no further command or file write is issued. -/
def stepCompletionResponse (m : Model) (msg : CompletionResponse) :
    GoOutcome (Model × List Effect) :=
  match msg.choices with
  | [] => .panicked
  | choice :: _ =>
    .ok ({ m with
            waiting := false
            client := { m.client with history := m.client.history ++ [choice.message] } },
         [])

/-- stepStreamResponse is the `case CompletionStreamResponse` branch of
`Model.Update`: it reads `msg.Choices[0]` (panic when empty); on finish reason
"stop" it flushes the accumulated deltas as one assistant message, clears the
scratch buffer and writes the history file; otherwise it re-arms the event
wait and, when the delta fragment is non-empty, appends it to the scratch
buffer. -/
def stepStreamResponse (m : Model) (msg : CompletionStreamResponse) :
    GoOutcome (Model × List Effect) :=
  match msg.choices with
  | [] => .panicked
  | choice :: _ =>
    if choice.finishReason = "stop" then
      .ok ({ m with
              waiting := false
              client := { m.client with
                history := m.client.history ++
                  [{ role := "assistant", content := m.streamDeltas }] }
              streamDeltas := "" },
           [Effect.saveHistory])
    else
      let m' :=
        if choice.delta.content.length > 0 then
          { m with streamDeltas := m.streamDeltas ++ choice.delta.content }
        else
          m
      .ok (m', [Effect.waitEvents])

/-- stepError is the `case error` branch of `Model.Update`: the error is
recorded (and then rendered by `View`); nothing else changes -- in particular
`waiting` and the history are left as they were and no command is issued. -/
def stepError (m : Model) (e : String) : Model × List Effect :=
  ({ m with err := some e }, [])

/-- stepsStreamResponses processes a list of stream events in order through
`stepStreamResponse`, propagating a panic and discarding the per-step
commands. -/
def stepsStreamResponses (m : Model) :
    List CompletionStreamResponse → GoOutcome Model
  | [] => .ok m
  | ev :: rest =>
    match stepStreamResponse m ev with
    | .ok (m', _) => stepsStreamResponses m' rest
    | .err e => .err e
    | .panicked => .panicked

/-- firstDeltaContent extracts the content fragment of an event's first
choice (empty when the event has no choices). -/
def firstDeltaContent (ev : CompletionStreamResponse) : String :=
  match ev.choices with
  | [] => ""
  | choice :: _ => choice.delta.content

/-- deltaConcat is the ordered concatenation of the events' first-choice delta
contents. -/
def deltaConcat : List CompletionStreamResponse → String
  | [] => ""
  | ev :: rest => firstDeltaContent ev ++ deltaConcat rest

/-- hexDigitChar is the lowercase hex digit for `n < 16`, as `encoding/json`
emits in `\u00xx` escapes. -/
def hexDigitChar (n : Nat) : Char :=
  if n < 10 then Char.ofNat (48 + n) else Char.ofNat (87 + n)

/-- escapeChar is `encoding/json`'s string escaping (HTML escaping on, the
`json.Marshal` default) for one Unicode scalar value: quote, backslash,
newline, carriage return and tab get two-character escapes; other control
characters and the HTML-sensitive `<`, `>`, `&` become `\u00xx`; U+2028 and
U+2029 become ` `/` `; everything else is emitted literally. -/
def escapeChar (c : Char) : List Char :=
  if c = '"' then ['\\', '"']
  else if c = '\\' then ['\\', '\\']
  else if c = '\n' then ['\\', 'n']
  else if c = '\r' then ['\\', 'r']
  else if c = '\t' then ['\\', 't']
  else if c.toNat < 32 ∨ c = '<' ∨ c = '>' ∨ c = '&' then
    ['\\', 'u', '0', '0', hexDigitChar (c.toNat / 16), hexDigitChar (c.toNat % 16)]
  else if c.toNat = 8232 ∨ c.toNat = 8233 then
    ['\\', 'u', '2', '0', '2', hexDigitChar (c.toNat % 16)]
  else [c]

/-- escapeString applies `escapeChar` to every character in order. -/
def escapeString : List Char → List Char
  | [] => []
  | c :: rest => escapeChar c ++ escapeString rest

/-- encodeString is a JSON string literal as `json.Marshal` writes it. -/
def encodeString (s : List Char) : List Char :=
  '"' :: (escapeString s ++ ['"'])

/-- roleKey is the characters `"role":` that `json.Marshal` emits before the
first field of a `Message` (struct fields are marshalled in declaration
order, without whitespace). -/
def roleKey : List Char := ['"', 'r', 'o', 'l', 'e', '"', ':']

/-- contentKey is the characters `,"content":` before the second field. -/
def contentKey : List Char := [',', '"', 'c', 'o', 'n', 't', 'e', 'n', 't', '"', ':']

/-- encodeMessage is `json.Marshal` of one `Message`:
`{"role":<role>,"content":<content>}`. -/
def encodeMessage (m : Message) : List Char :=
  '{' :: (roleKey ++ encodeString m.role.data ++ contentKey ++
    encodeString m.content.data ++ ['}'])

/-- encodeElemsTail is the rest of a marshalled non-empty `[]Message` after
its first element: `,<elem>` repeated, then `]`. -/
def encodeElemsTail : List Message → List Char
  | [] => [']']
  | m :: rest => ',' :: (encodeMessage m ++ encodeElemsTail rest)

/-- encodeHistory is `json.Marshal` of a `[]Message` value (the chat history
is initialised to a non-nil empty slice, so the empty case is `[]`, not
`null`). -/
def encodeHistory : List Message → List Char
  | [] => ['[', ']']
  | m :: rest => '[' :: (encodeMessage m ++ encodeElemsTail rest)

/-- marshalHistory is the textual history-file format `Model.saveHistory`
writes: `json.Marshal(m.client.history)`. -/
def marshalHistory (history : List Message) : String :=
  ⟨encodeHistory history⟩

/-- isJsonWs is JSON's insignificant whitespace. -/
def isJsonWs (c : Char) : Bool :=
  c = ' ' ∨ c = '\t' ∨ c = '\n' ∨ c = '\r'

/-- skipWs drops insignificant whitespace, as `encoding/json`'s scanner does
between tokens. -/
def skipWs (s : List Char) : List Char :=
  s.dropWhile isJsonWs

/-- hexVal is the value of one hex digit. -/
def hexVal (c : Char) : Option Nat :=
  if '0' ≤ c ∧ c ≤ '9' then some (c.toNat - 48)
  else if 'a' ≤ c ∧ c ≤ 'f' then some (c.toNat - 87)
  else if 'A' ≤ c ∧ c ≤ 'F' then some (c.toNat - 55)
  else none

/-- unescapeSimple decodes a single-character JSON escape. -/
def unescapeSimple (c : Char) : Option Char :=
  if c = '"' then some '"'
  else if c = '\\' then some '\\'
  else if c = '/' then some '/'
  else if c = 'b' then some (Char.ofNat 8)
  else if c = 'f' then some (Char.ofNat 12)
  else if c = 'n' then some '\n'
  else if c = 'r' then some '\r'
  else if c = 't' then some '\t'
  else none

/-- parseStringBody reads a JSON string body after its opening quote, decoding
escapes the way `encoding/json` does, and returns the decoded characters and
the input after the closing quote.  A `\uXXXX` escape whose value is a
surrogate decodes to U+FFFD as Go does for lone surrogates (pair combination
is not modelled; `json.Marshal` never emits surrogate escapes). -/
def parseStringBody : List Char → Option (List Char × List Char)
  | [] => none
  | c :: rest =>
    if c = '"' then
      some ([], rest)
    else if c = '\\' then
      match rest with
      | 'u' :: h1 :: h2 :: h3 :: h4 :: rest2 =>
        match hexVal h1, hexVal h2, hexVal h3, hexVal h4 with
        | some v1, some v2, some v3, some v4 =>
          let v := ((v1 * 16 + v2) * 16 + v3) * 16 + v4
          let u := if 55296 ≤ v ∧ v < 57344 then 65533 else v
          (parseStringBody rest2).map (fun p => (Char.ofNat u :: p.1, p.2))
        | _, _, _, _ => none
      | e :: rest2 =>
        match unescapeSimple e with
        | some u => (parseStringBody rest2).map (fun p => (u :: p.1, p.2))
        | none => none
      | [] => none
    else
      (parseStringBody rest).map (fun p => (c :: p.1, p.2))

/-- parseJsonString expects an opening quote and reads a whole JSON string
literal. -/
def parseJsonString : List Char → Option (List Char × List Char)
  | [] => none
  | c :: rest => if c = '"' then parseStringBody rest else none

/-- messageZero is the Go zero value `Message{}` that `json.Unmarshal`
decodes each array element into before setting matched fields. -/
def messageZero : Message := { role := "", content := "" }

/-- parsePairs reads the `"key":"value"` pairs of an object body (input is
positioned just after `{` or after a separating comma), setting the `role` and
`content` fields of the accumulator as `json.Unmarshal` does and ignoring
unknown keys; only string values occur in the history-file format.  `fuel`
bounds the number of pairs. -/
def parsePairs : Nat → Message → List Char → Option (Message × List Char)
  | 0, _, _ => none
  | fuel + 1, acc, s =>
    match parseJsonString (skipWs s) with
    | none => none
    | some (key, rest) =>
      match skipWs rest with
      | ':' :: rest2 =>
        match parseJsonString (skipWs rest2) with
        | none => none
        | some (value, rest3) =>
          let acc' :=
            if key = ['r', 'o', 'l', 'e'] then { acc with role := ⟨value⟩ }
            else if key = ['c', 'o', 'n', 't', 'e', 'n', 't'] then { acc with content := ⟨value⟩ }
            else acc
          match skipWs rest3 with
          | ',' :: rest4 => parsePairs fuel acc' rest4
          | '}' :: rest4 => some (acc', rest4)
          | _ => none
      | _ => none

/-- parseObject reads one JSON object as a `Message`. -/
def parseObject (fuel : Nat) (s : List Char) : Option (Message × List Char) :=
  match skipWs s with
  | '{' :: rest =>
    match skipWs rest with
    | '}' :: rest2 => some (messageZero, rest2)
    | _ => parsePairs fuel messageZero rest
  | _ => none

/-- parseElems reads the elements of a non-empty JSON array of objects (input
positioned just after `[` or after a separating comma), returning them in
order; `fuel` bounds the number of elements. -/
def parseElems : Nat → List Char → Option (List Message × List Char)
  | 0, _ => none
  | fuel + 1, s =>
    match parseObject (fuel + 1) s with
    | none => none
    | some (m, rest) =>
      match skipWs rest with
      | ',' :: rest2 => (parseElems fuel rest2).map (fun p => (m :: p.1, p.2))
      | ']' :: rest2 => some ([m], rest2)
      | _ => none

/-- unmarshalHistory models `json.Unmarshal(data, &m.client.history)` on the
history-file format: a JSON array of objects, with nothing but whitespace
allowed after it. -/
def unmarshalHistory (data : String) : Option (List Message) :=
  match skipWs data.data with
  | '[' :: rest =>
    match skipWs rest with
    | ']' :: rest2 => if skipWs rest2 = [] then some [] else none
    | _ =>
      match parseElems data.data.length rest with
      | some (ms, rest2) => if skipWs rest2 = [] then some ms else none
      | none => none
  | _ => none

/-- sessionFilePath is the per-session history file `Model.saveHistory`
writes, named by the session id (relative to the home directory). -/
def sessionFilePath (sessionId : String) : String :=
  ".config/gptui/chat/" ++ sessionId ++ ".json"

/-- saveHistory models `Model.saveHistory`: the whole history is marshalled
and written wholesale to the session file; the result is the written path and
contents. -/
def saveHistory (m : Model) : String × String :=
  (sessionFilePath m.sessionId, marshalHistory m.client.history)

/-- loadHistory models the decoding step of `Model.loadHistory`: the file
contents are unmarshalled into the client's history. -/
def loadHistory (data : String) : Option (List Message) :=
  unmarshalHistory data

/-- dataPayload is the payload the scanner loop extracts from one line: the
line trimmed of the literal `data:` marker and surrounding whitespace, or
`none` for a line not carrying that marker.  Specification-side description,
to be compared with `processStreamLines`. -/
def dataPayload (l : String) : Option String :=
  if hasDataMarker l then some (trimSpace (dropMarker l)) else none

/-- sseBatch is the specification-side description of the payloads a body
yields: the payloads of the marker-carrying lines, in order, up to (and
excluding) the first `[DONE]` sentinel. -/
def sseBatch (lines : List String) : List String :=
  (lines.filterMap dataPayload).takeWhile (fun p => p != "[DONE]")

/-- Claim C1, counterexample: on the very first turn of a client configured
with a system message ("sys") and empty history, submitting "hello" builds a
request whose message list is just the user message -- not, as claimed, a
copy of the (empty) history followed by the user message with the system
message prepended.  (The user message is appended to the history before
`newCompletionRequest` runs, so its history-empty test is already false, and
the existing history is never included at all.) -/
theorem claim1_counterexample :
    (sendKey
      { client := { model := "gpt-3.5-turbo", stream := false, token := "tok",
                    system := "sys", history := [] } } "hello").2 =
      [Effect.createCompletion
        { model := "gpt-3.5-turbo",
          messages := [{ role := "user", content := "hello" }] }] ∧
    [Effect.createCompletion
        { model := "gpt-3.5-turbo",
          messages := [{ role := "user", content := "hello" }] }] ≠
      [Effect.createCompletion
        { model := "gpt-3.5-turbo",
          messages := [{ role := "system", content := "sys" },
                       { role := "user", content := "hello" }] }] := by
  decide

/-- Claim C1 (amended): for every submitted turn, the history gains the user
message, but the CompletionRequest sent over the network contains only that
new user message -- never the prior conversation history (a TODO in the
source) and never the configured system message (the user message is appended
to the history before the request is built, so the history-empty test of
`newCompletionRequest` can never hold). -/
theorem claim1_request_contains_only_user_message (m : Model) (input : String)
    (hml : m.multiline = false) (hw : m.waiting = false) :
    (sendKey m input).1.client.history =
      m.client.history ++ [{ role := "user", content := input }] ∧
    (sendKey m input).2.head? =
      some (Effect.createCompletion
        { model := m.client.model,
          messages := [{ role := "user", content := input }] }) := by
  simp [sendKey, hml, hw, newCompletionRequest]

/-- Claim C1 witness: the amended theorem applied to a concrete first-turn
model with a configured system message. -/
theorem claim1_witness :
    (sendKey
      { client := { model := "gpt-4", stream := true, token := "tok",
                    system := "be brief", history := [] } } "hi").1.client.history =
      [{ role := "user", content := "hi" }] ∧
    (sendKey
      { client := { model := "gpt-4", stream := true, token := "tok",
                    system := "be brief", history := [] } } "hi").2.head? =
      some (Effect.createCompletion
        { model := "gpt-4", messages := [{ role := "user", content := "hi" }] }) :=
  claim1_request_contains_only_user_message
    { client := { model := "gpt-4", stream := true, token := "tok",
                  system := "be brief", history := [] } } "hi" rfl rfl

/-- Claim C3: when the HTTP exchange itself fails (here: connection refused),
`Client.CreateCompletion` does not return the failure as an error value -- it
panics, because `defer resp.Body.Close()` is executed before the error check
and dereferences the nil response.  This contradicts the engine's own error
design (the very next line returns the error), so it is a bug in the code. -/
theorem claim3_transport_failure_panics :
    createCompletion
      { model := "gpt-3.5-turbo", stream := false, token := "tok", history := [] }
      (.error "dial tcp: connect: connection refused")
      (fun _ => .error "unreached") (fun _ => .error "unreached") =
      (.panicked, []) ∧
    ∀ e, (GoOutcome.panicked : GoOutcome (Option CompletionResponse)) ≠ .err e := by
  constructor
  · rfl
  · intro e h
    cases h

/-- Claim C4: with an empty API token, a submitted turn still appends the user
message to the history, and the completion call fails with the missing-key
error no matter what the transport would have answered -- the result is
independent of `doResult`, so no network call is consulted and no HTTP
request needs to be built. -/
theorem claim4_auth_error_before_network (m : Model) (input : String)
    (hml : m.multiline = false) (hw : m.waiting = false)
    (htok : m.client.token = "") :
    (sendKey m input).1.client.history =
      m.client.history ++ [{ role := "user", content := input }] ∧
    ∀ doResult decodeResp decodeStream,
      createCompletionChecked (sendKey m input).1.client
          doResult decodeResp decodeStream =
        (.err authErrorMsg, []) := by
  constructor
  · simp [sendKey, hml, hw]
  · intro doResult decodeResp decodeStream
    simp [sendKey, hml, hw, createCompletionChecked, htok]

/-- Claim C4 witness: the theorem applied to a concrete model with an empty
token and an adversarial transport result. -/
theorem claim4_witness :
    (sendKey
      { client := { model := "gpt-4", stream := false, token := "",
                    history := [] } } "hello").1.client.history =
      [{ role := "user", content := "hello" }] ∧
    ∀ doResult decodeResp decodeStream,
      createCompletionChecked
          (sendKey
            { client := { model := "gpt-4", stream := false, token := "",
                          history := [] } } "hello").1.client
          doResult decodeResp decodeStream =
        (.err authErrorMsg, []) :=
  claim4_auth_error_before_network
    { client := { model := "gpt-4", stream := false, token := "", history := [] } }
    "hello" rfl rfl rfl

/-- Claim C5, counterexample: a completion response (or stream event) with
zero candidate choices makes the update branch read `msg.Choices[0]` and
panic with an index-out-of-range error -- the turn is a crash, not an
`EmptyResponseError` occurrence (no such error exists in the code). -/
theorem claim5_counterexample :
    stepCompletionResponse
      { client := { model := "m", stream := false, token := "t", history := [] },
        waiting := true }
      { choices := [] } = .panicked ∧
    stepStreamResponse
      { client := { model := "m", stream := true, token := "t", history := [] },
        waiting := true }
      { choices := [] } = .panicked := by
  decide

/-- Claim C5 (amended): a zero-candidate response or stream event crashes the
update loop (index out of range) instead of being treated as an error
occurrence; when at least one candidate is present, only the first is ever
used (the remaining ones do not influence the transition). -/
theorem claim5_zero_candidates_panic (m : Model) (resp : CompletionResponse)
    (c : CompletionChoice) (cs : List CompletionChoice)
    (hc : resp.choices = c :: cs) :
    stepCompletionResponse m { choices := [] } = .panicked ∧
    stepStreamResponse m { choices := [] } = .panicked ∧
    stepCompletionResponse m resp =
      .ok ({ m with
              waiting := false
              client := { m.client with
                history := m.client.history ++ [c.message] } }, []) := by
  refine ⟨rfl, rfl, ?_⟩
  simp [stepCompletionResponse, hc]

/-- Claim C5 witness: the amended theorem applied to a two-candidate response;
only the first candidate's message is appended. -/
theorem claim5_witness :
    stepCompletionResponse
      { client := { model := "m", stream := false, token := "t", history := [] } }
      { choices := [] } = .panicked ∧
    stepStreamResponse
      { client := { model := "m", stream := false, token := "t", history := [] } }
      { choices := [] } = .panicked ∧
    stepCompletionResponse
      { client := { model := "m", stream := false, token := "t", history := [] } }
      { choices := [{ message := { role := "assistant", content := "Hi!" },
                      finishReason := "stop" },
                    { message := { role := "assistant", content := "ignored" },
                      finishReason := "stop" }] } =
      .ok ({ client := { model := "m", stream := false, token := "t",
                         history := [{ role := "assistant", content := "Hi!" }] },
             waiting := false }, []) :=
  claim5_zero_candidates_panic
    { client := { model := "m", stream := false, token := "t", history := [] } }
    { choices := [{ message := { role := "assistant", content := "Hi!" },
                    finishReason := "stop" },
                  { message := { role := "assistant", content := "ignored" },
                    finishReason := "stop" }] }
    { message := { role := "assistant", content := "Hi!" }, finishReason := "stop" }
    [{ message := { role := "assistant", content := "ignored" }, finishReason := "stop" }]
    rfl

/-- Claim C6, counterexample: an error occurrence received while waiting does
not return the state machine to Idle -- the `case error` branch only records
the error and never clears the `waiting` flag, so a new message can never be
submitted (the send branch requires `!m.waiting`). -/
theorem claim6_counterexample :
    ¬ ((stepError
        { client := { model := "m", stream := false, token := "t",
                      history := [{ role := "user", content := "hi" }] },
          waiting := true }
        "status code: 429, body: rate limited").1.waiting = false) := by
  decide

/-- Claim C6 (amended): an error occurrence during an outstanding turn records
the error and leaves the history unchanged -- after the failed turn the
history is exactly the pre-turn history plus the one submitted user message,
never an assistant message -- but the machine does not return to Idle: the
`waiting` flag stays set, so the user cannot resend. -/
theorem claim6_error_recorded_history_preserved (m : Model) (input e : String)
    (hml : m.multiline = false) (hw : m.waiting = false) :
    (stepError (sendKey m input).1 e).1.err = some e ∧
    (stepError (sendKey m input).1 e).1.client.history =
      m.client.history ++ [{ role := "user", content := input }] ∧
    (stepError (sendKey m input).1 e).1.client.history.length =
      m.client.history.length + 1 ∧
    (stepError (sendKey m input).1 e).1.waiting = true ∧
    (stepError (sendKey m input).1 e).2 = [] := by
  refine ⟨rfl, ?_, ?_, ?_, rfl⟩ <;>
    simp [sendKey, stepError, hml, hw]

/-- Claim C6 witness: the amended theorem at a concrete model and error. -/
theorem claim6_witness :
    (stepError
      (sendKey
        { client := { model := "m", stream := false, token := "t", history := [] } }
        "hello").1
      "status code: 429, body: rate limited").1.err =
        some "status code: 429, body: rate limited" ∧
    (stepError
      (sendKey
        { client := { model := "m", stream := false, token := "t", history := [] } }
        "hello").1
      "status code: 429, body: rate limited").1.client.history =
        [{ role := "user", content := "hello" }] ∧
    (stepError
      (sendKey
        { client := { model := "m", stream := false, token := "t", history := [] } }
        "hello").1
      "status code: 429, body: rate limited").1.client.history.length = 1 ∧
    (stepError
      (sendKey
        { client := { model := "m", stream := false, token := "t", history := [] } }
        "hello").1
      "status code: 429, body: rate limited").1.waiting = true ∧
    (stepError
      (sendKey
        { client := { model := "m", stream := false, token := "t", history := [] } }
        "hello").1
      "status code: 429, body: rate limited").2 = [] :=
  claim6_error_recorded_history_preserved
    { client := { model := "m", stream := false, token := "t", history := [] } }
    "hello" "status code: 429, body: rate limited" rfl rfl

/-- Claim C8, counterexample: the chat client built for streaming mode does
have a fixed timeout configured on its HTTP client (Go's
`http.Client.Timeout` covers reading the response body, so a long-lived
stream is cut off by it); the claim that no fixed timeout is configured for
streaming calls is false. -/
theorem claim8_counterexample :
    ¬ ((NewChatClient "https://api.openai.com/v1" "tok" "gpt-3.5-turbo"
          true).httpClient.timeout = 0) := by
  decide

/-- Claim C8 (amended): `NewChatClient` applies the same fixed one-minute
timeout to its single HTTP client regardless of the streaming mode, so
streaming and non-streaming completion calls alike are subject to it. -/
theorem claim8_fixed_timeout_both_modes (baseURL token model : String)
    (stream : Bool) :
    (NewChatClient baseURL token model stream).httpClient.timeout = timeMinute ∧
    (NewChatClient baseURL token model stream).httpClient.baseURL = baseURL := by
  exact ⟨rfl, rfl⟩

theorem string_length_zero {s : String} (h : ¬ s.length > 0) : s = "" := by
  cases s with
  | mk data =>
    cases data with
    | nil => rfl
    | cons c rest => simp [String.length] at h

theorem stepStreamResponse_nonterminal (m : Model) (ev : CompletionStreamResponse)
    (c : CompletionStreamChoice) (cs : List CompletionStreamChoice)
    (hc : ev.choices = c :: cs) (hfr : c.finishReason ≠ "stop") :
    stepStreamResponse m ev =
      .ok ({ m with streamDeltas := m.streamDeltas ++ c.delta.content },
           [Effect.waitEvents]) := by
  simp only [stepStreamResponse, hc]
  rw [if_neg hfr]
  by_cases hlen : c.delta.content.length > 0
  · rw [if_pos hlen]
  · rw [if_neg hlen, string_length_zero hlen, String.append_empty]

theorem stepsStreamResponses_nonterminal (events : List CompletionStreamResponse)
    (m : Model)
    (hne : ∀ ev ∈ events, ∃ c cs, ev.choices = c :: cs ∧ c.finishReason ≠ "stop") :
    stepsStreamResponses m events =
      .ok { m with streamDeltas := m.streamDeltas ++ deltaConcat events } := by
  induction events generalizing m with
  | nil => simp [stepsStreamResponses, deltaConcat]
  | cons ev rest ih =>
    obtain ⟨c, cs, hc, hfr⟩ := hne ev (List.mem_cons_self ev rest)
    simp only [stepsStreamResponses,
      stepStreamResponse_nonterminal m ev c cs hc hfr]
    rw [ih _ (fun e he => hne e (List.mem_cons_of_mem ev he))]
    simp [deltaConcat, firstDeltaContent, hc, String.append_assoc]

theorem stepsStreamResponses_append (xs ys : List CompletionStreamResponse)
    (m : Model) :
    stepsStreamResponses m (xs ++ ys) =
      match stepsStreamResponses m xs with
      | .ok m' => stepsStreamResponses m' ys
      | .err e => .err e
      | .panicked => .panicked := by
  induction xs generalizing m with
  | nil => simp [stepsStreamResponses]
  | cons ev rest ih =>
    simp only [List.cons_append, stepsStreamResponses]
    cases stepStreamResponse m ev with
    | ok p => exact ih p.1
    | err e => rfl
    | panicked => rfl

/-- Claim C2: starting a streaming turn with an empty scratch buffer, any
finite sequence of non-terminal stream events (each with at least one choice,
none finishing) leaves the scratch buffer equal to the ordered concatenation
of their first-choice delta contents -- nothing dropped or reordered -- and
the subsequent terminal event (finish reason "stop") appends exactly one
assistant message whose content is that concatenation, clears the scratch
buffer and leaves Waiting. -/
theorem claim2_stream_concatenation (m : Model)
    (events : List CompletionStreamResponse) (evT : CompletionStreamResponse)
    (h0 : m.streamDeltas = "") (hw : m.waiting = true)
    (hne : ∀ ev ∈ events, ∃ c cs, ev.choices = c :: cs ∧ c.finishReason ≠ "stop")
    (hT : ∃ c cs, evT.choices = c :: cs ∧ c.finishReason = "stop") :
    stepsStreamResponses m events =
      .ok { m with streamDeltas := deltaConcat events } ∧
    stepsStreamResponses m (events ++ [evT]) =
      .ok { m with
              waiting := false
              streamDeltas := ""
              client := { m.client with
                history := m.client.history ++
                  [{ role := "assistant", content := deltaConcat events }] } } := by
  obtain ⟨c, cs, hc, hstop⟩ := hT
  have h1 : stepsStreamResponses m events =
      .ok { m with streamDeltas := deltaConcat events } := by
    rw [stepsStreamResponses_nonterminal events m hne, h0, String.empty_append]
  refine ⟨h1, ?_⟩
  rw [stepsStreamResponses_append, h1]
  simp [stepsStreamResponses, stepStreamResponse, hc, hstop]

/-- Claim C2 witness: scenario C -- deltas "Hel", "lo", "!" followed by the
terminal event yield a scratch buffer "Hello!" and exactly one appended
assistant message with that content. -/
theorem claim2_witness :
    stepsStreamResponses
      { client := { model := "m", stream := true, token := "t", history := [] },
        waiting := true }
      [{ choices := [{ delta := { content := "Hel" } }] },
       { choices := [{ delta := { content := "lo" } }] },
       { choices := [{ delta := { content := "!" } }] }] =
      .ok { client := { model := "m", stream := true, token := "t", history := [] },
            waiting := true, streamDeltas := "Hello!" } ∧
    stepsStreamResponses
      { client := { model := "m", stream := true, token := "t", history := [] },
        waiting := true }
      ([{ choices := [{ delta := { content := "Hel" } }] },
        { choices := [{ delta := { content := "lo" } }] },
        { choices := [{ delta := { content := "!" } }] }] ++
       [{ choices := [{ finishReason := "stop" }] }]) =
      .ok { client := { model := "m", stream := true, token := "t",
                        history := [{ role := "assistant", content := "Hello!" }] },
            waiting := false, streamDeltas := "" } := by
  have h := claim2_stream_concatenation
    { client := { model := "m", stream := true, token := "t", history := [] },
      waiting := true }
    [{ choices := [{ delta := { content := "Hel" } }] },
     { choices := [{ delta := { content := "lo" } }] },
     { choices := [{ delta := { content := "!" } }] }]
    { choices := [{ finishReason := "stop" }] }
    rfl rfl
    (by
      intro ev hev
      simp only [List.mem_cons, List.not_mem_nil, or_false] at hev
      rcases hev with rfl | rfl | rfl <;>
        exact ⟨_, _, rfl, by decide⟩)
    ⟨_, _, rfl, rfl⟩
  exact h

/-- Claim C10, counterexample: a completed non-streaming turn -- the
`CompletionResponse` branch appending the assistant message -- produces no
effect at all, in particular no history-file write; the claim that the
history is written after every completed turn is false for the non-streaming
path. -/
theorem claim10_counterexample :
    stepCompletionResponse
      { client := { model := "m", stream := false, token := "t",
                    history := [{ role := "user", content := "hi" }] },
        sessionId := "2023-05-01_10-00-00", waiting := true }
      { choices := [{ message := { role := "assistant", content := "Hi!" },
                      finishReason := "stop" }] } =
      .ok ({ client := { model := "m", stream := false, token := "t",
                         history := [{ role := "user", content := "hi" },
                                     { role := "assistant", content := "Hi!" }] },
             sessionId := "2023-05-01_10-00-00", waiting := false }, []) ∧
    ¬ (∃ m' effects,
        stepCompletionResponse
          { client := { model := "m", stream := false, token := "t",
                        history := [{ role := "user", content := "hi" }] },
            sessionId := "2023-05-01_10-00-00", waiting := true }
          { choices := [{ message := { role := "assistant", content := "Hi!" },
                          finishReason := "stop" }] } =
          .ok (m', effects) ∧ Effect.saveHistory ∈ effects) := by
  have hstep : stepCompletionResponse
      { client := { model := "m", stream := false, token := "t",
                    history := [{ role := "user", content := "hi" }] },
        sessionId := "2023-05-01_10-00-00", waiting := true }
      { choices := [{ message := { role := "assistant", content := "Hi!" },
                      finishReason := "stop" }] } =
      .ok ({ client := { model := "m", stream := false, token := "t",
                         history := [{ role := "user", content := "hi" },
                                     { role := "assistant", content := "Hi!" }] },
             sessionId := "2023-05-01_10-00-00", waiting := false }, []) := by
    decide
  refine ⟨hstep, ?_⟩
  rintro ⟨m', effects, heq, hmem⟩
  rw [hstep] at heq
  injection heq with h
  have heff : ([] : List Effect) = effects := congrArg Prod.snd h
  rw [← heff] at hmem
  exact List.not_mem_nil _ hmem

/-- Claim C10 (amended): only a finished streaming turn persists the history:
the terminal stream event flushes the scratch buffer into the history and
writes the history file (wholesale, to the session file named by the session
id), while a completed non-streaming turn appends the assistant message but
performs no file write. -/
theorem claim10_save_only_on_stream_finish (m : Model) (resp : CompletionResponse)
    (ev : CompletionStreamResponse)
    (c : CompletionChoice) (cs : List CompletionChoice)
    (d : CompletionStreamChoice) (ds : List CompletionStreamChoice)
    (hr : resp.choices = c :: cs) (he : ev.choices = d :: ds)
    (hstop : d.finishReason = "stop") :
    stepCompletionResponse m resp =
      .ok ({ m with
              waiting := false
              client := { m.client with
                history := m.client.history ++ [c.message] } }, []) ∧
    stepStreamResponse m ev =
      .ok ({ m with
              waiting := false
              streamDeltas := ""
              client := { m.client with
                history := m.client.history ++
                  [{ role := "assistant", content := m.streamDeltas }] } },
           [Effect.saveHistory]) ∧
    saveHistory m = (sessionFilePath m.sessionId, marshalHistory m.client.history) := by
  refine ⟨?_, ?_, rfl⟩
  · simp [stepCompletionResponse, hr]
  · simp [stepStreamResponse, he, hstop]

/-- Claim C10 witness: the amended theorem applied to scenario B's response
and a terminal stream event. -/
theorem claim10_witness :
    stepCompletionResponse
      { client := { model := "m", stream := false, token := "t", history := [] },
        sessionId := "s", streamDeltas := "Hello!" }
      { choices := [{ message := { role := "assistant", content := "Hi!" },
                      finishReason := "stop" }] } =
      .ok ({ client := { model := "m", stream := false, token := "t",
                         history := [{ role := "assistant", content := "Hi!" }] },
             sessionId := "s", streamDeltas := "Hello!", waiting := false }, []) ∧
    stepStreamResponse
      { client := { model := "m", stream := false, token := "t", history := [] },
        sessionId := "s", streamDeltas := "Hello!" }
      { choices := [{ finishReason := "stop" }] } =
      .ok ({ client := { model := "m", stream := false, token := "t",
                         history := [{ role := "assistant", content := "Hello!" }] },
             sessionId := "s", streamDeltas := "", waiting := false },
           [Effect.saveHistory]) ∧
    saveHistory
      { client := { model := "m", stream := false, token := "t", history := [] },
        sessionId := "s", streamDeltas := "Hello!" } =
      (sessionFilePath "s", marshalHistory []) :=
  claim10_save_only_on_stream_finish
    { client := { model := "m", stream := false, token := "t", history := [] },
      sessionId := "s", streamDeltas := "Hello!" }
    { choices := [{ message := { role := "assistant", content := "Hi!" },
                    finishReason := "stop" }] }
    { choices := [{ finishReason := "stop" }] }
    { message := { role := "assistant", content := "Hi!" }, finishReason := "stop" }
    [] { finishReason := "stop" } [] rfl rfl rfl

theorem sseBatch_nil : sseBatch [] = [] := rfl

theorem sseBatch_cons_noPayload (l : String) (rest : List String)
    (h : ¬ hasDataMarker l) :
    sseBatch (l :: rest) = sseBatch rest := by
  simp [sseBatch, dataPayload, h]

theorem sseBatch_cons_done (l : String) (rest : List String)
    (hp : hasDataMarker l) (hd : trimSpace (dropMarker l) = "[DONE]") :
    sseBatch (l :: rest) = [] := by
  simp [sseBatch, dataPayload, hp, hd]

theorem sseBatch_cons_data (l : String) (rest : List String)
    (hp : hasDataMarker l) (hd : trimSpace (dropMarker l) ≠ "[DONE]") :
    sseBatch (l :: rest) = trimSpace (dropMarker l) :: sseBatch rest := by
  simp [sseBatch, dataPayload, hp, hd]

theorem processStreamLines_all_ok
    (decode : String → Except String CompletionStreamResponse)
    (lines : List String)
    (h : ∀ p ∈ sseBatch lines, (decode p).isOk = true) :
    processStreamLines decode lines =
      ((sseBatch lines).filterMap (fun p => (decode p).toOption), none) := by
  induction lines with
  | nil => simp [processStreamLines, sseBatch]
  | cons l rest ih =>
    by_cases hp : hasDataMarker l
    · by_cases hd : trimSpace (dropMarker l) = "[DONE]"
      · rw [sseBatch_cons_done l rest hp hd]
        simp [processStreamLines, hp, hd]
      · rw [sseBatch_cons_data l rest hp hd] at h ⊢
        have h1 := h _ (List.mem_cons_self _ _)
        cases hdec : decode (trimSpace (dropMarker l)) with
        | error e => rw [hdec] at h1; simp [Except.isOk, Except.toBool] at h1
        | ok ev =>
          rw [List.filterMap_cons]
          simp only [hdec, Except.toOption]
          simp only [processStreamLines, hp, if_true, if_neg hd, hdec]
          rw [ih (fun p hp2 => h p (List.mem_cons_of_mem _ hp2))]
          rfl
    · rw [sseBatch_cons_noPayload l rest hp] at h ⊢
      simp only [processStreamLines, hp, if_false]
      exact ih h

theorem processStreamLines_decode_failure
    (decode : String → Except String CompletionStreamResponse)
    (lines : List String) :
    ∀ good bad after e, sseBatch lines = good ++ bad :: after →
      (∀ p ∈ good, (decode p).isOk = true) → decode bad = .error e →
      processStreamLines decode lines =
        (good.filterMap (fun p => (decode p).toOption), some e) := by
  induction lines with
  | nil =>
    intro good bad after e hsplit
    rw [sseBatch_nil] at hsplit
    exact absurd hsplit.symm (List.append_ne_nil_of_right_ne_nil good (by simp))
  | cons l rest ih =>
    intro good bad after e hsplit hgood hbad
    by_cases hp : hasDataMarker l
    · by_cases hd : trimSpace (dropMarker l) = "[DONE]"
      · rw [sseBatch_cons_done l rest hp hd] at hsplit
        exact absurd hsplit.symm (List.append_ne_nil_of_right_ne_nil good (by simp))
      · rw [sseBatch_cons_data l rest hp hd] at hsplit
        cases good with
        | nil =>
          simp only [List.nil_append, List.cons.injEq] at hsplit
          obtain ⟨hb, hrest⟩ := hsplit
          subst hb
          simp [processStreamLines, hp, hd, hbad]
        | cons g good' =>
          simp only [List.cons_append, List.cons.injEq] at hsplit
          obtain ⟨hg, htail⟩ := hsplit
          subst hg
          have h1 := hgood _ (List.mem_cons_self _ _)
          cases hdec : decode (trimSpace (dropMarker l)) with
          | error e2 => rw [hdec] at h1; simp [Except.isOk, Except.toBool] at h1
          | ok ev =>
            rw [List.filterMap_cons]
            simp only [hdec, Except.toOption]
            simp only [processStreamLines, hp, if_true, if_neg hd, hdec]
            rw [ih good' bad after e htail
              (fun p hp2 => hgood p (List.mem_cons_of_mem _ hp2)) hbad]
            rfl
    · rw [sseBatch_cons_noPayload l rest hp] at hsplit
      simp only [processStreamLines, hp, if_false]
      exact ih good bad after e hsplit hgood hbad

/-- Claim C7: the streaming body is processed line by line; exactly the lines
carrying the literal `data:` marker contribute, each trimmed payload before
the first `[DONE]` sentinel is decoded and delivered in arrival order (the
sentinel ends the stream with no further event, other lines are ignored), and
if all of them decode the call ends cleanly; if any one payload fails to
decode, the whole stream is aborted at that event with exactly that failure
reported, the earlier events having been delivered. -/
theorem claim7_sse_line_processing
    (decode : String → Except String CompletionStreamResponse)
    (lines : List String) :
    ((∀ p ∈ sseBatch lines, (decode p).isOk = true) →
      processStreamLines decode lines =
        ((sseBatch lines).filterMap (fun p => (decode p).toOption), none)) ∧
    (∀ good bad after e, sseBatch lines = good ++ bad :: after →
      (∀ p ∈ good, (decode p).isOk = true) → decode bad = .error e →
      processStreamLines decode lines =
        (good.filterMap (fun p => (decode p).toOption), some e)) :=
  ⟨processStreamLines_all_ok decode lines,
   processStreamLines_decode_failure decode lines⟩

/-- Claim C7 witness: the theorem applied to a concrete body (keep-alive and
blank lines ignored, two events delivered in order, the sentinel ending the
stream before a further data line) and to a concrete body whose second
payload fails to decode, aborting with exactly that failure after delivering
the first event. -/
theorem claim7_witness :
    processStreamLines
      (fun p => if p = "bad" then Except.error "invalid json"
                else Except.ok { choices := [{ delta := { content := p } }] })
      ["", ": keep-alive", "data: {a}", "data:{b}", "event: x",
       "data: [DONE]", "data: {c}"] =
      ([{ choices := [{ delta := { content := "{a}" } }] },
        { choices := [{ delta := { content := "{b}" } }] }], none) ∧
    processStreamLines
      (fun p => if p = "bad" then Except.error "invalid json"
                else Except.ok { choices := [{ delta := { content := p } }] })
      ["data: {a}", "data: bad", "data: {c}"] =
      ([{ choices := [{ delta := { content := "{a}" } }] }], some "invalid json") :=
  ⟨(claim7_sse_line_processing
      (fun p => if p = "bad" then Except.error "invalid json"
                else Except.ok { choices := [{ delta := { content := p } }] })
      ["", ": keep-alive", "data: {a}", "data:{b}", "event: x",
       "data: [DONE]", "data: {c}"]).1 (by decide),
   (claim7_sse_line_processing
      (fun p => if p = "bad" then Except.error "invalid json"
                else Except.ok { choices := [{ delta := { content := p } }] })
      ["data: {a}", "data: bad", "data: {c}"]).2
     ["{a}"] "bad" ["{c}"] "invalid json" (by decide) (by decide) rfl⟩

theorem hexVal_hexDigitChar (n : Nat) (h : n < 16) :
    hexVal (hexDigitChar n) = some n := by
  interval_cases n <;> decide

theorem parseStringBody_quote (rest : List Char) :
    parseStringBody ('"' :: rest) = some ([], rest) := by
  simp [parseStringBody.eq_def]

theorem parseStringBody_cons_other (c : Char) (rest : List Char)
    (h1 : ¬ c = '"') (h2 : ¬ c = '\\') :
    parseStringBody (c :: rest) =
      (parseStringBody rest).map (fun p => (c :: p.1, p.2)) := by
  rw [parseStringBody.eq_def]
  simp only []
  rw [if_neg h1, if_neg h2]

theorem parseStringBody_hex (h1 h2 h3 h4 : Char) (v1 v2 v3 v4 : Nat)
    (rest : List Char)
    (e1 : hexVal h1 = some v1) (e2 : hexVal h2 = some v2)
    (e3 : hexVal h3 = some v3) (e4 : hexVal h4 = some v4) :
    parseStringBody ('\\' :: 'u' :: h1 :: h2 :: h3 :: h4 :: rest) =
      (parseStringBody rest).map (fun p =>
        (Char.ofNat
          (if 55296 ≤ ((v1 * 16 + v2) * 16 + v3) * 16 + v4 ∧
              ((v1 * 16 + v2) * 16 + v3) * 16 + v4 < 57344 then 65533
           else ((v1 * 16 + v2) * 16 + v3) * 16 + v4) :: p.1, p.2)) := by
  conv_lhs => rw [parseStringBody.eq_def]
  simp [e1, e2, e3, e4]

theorem parseStringBody_escape (s tail : List Char) :
    parseStringBody (escapeString s ++ ('"' :: tail)) = some (s, tail) := by
  induction s with
  | nil => rw [escapeString, List.nil_append, parseStringBody_quote]
  | cons c s' ih =>
    rw [escapeString, List.append_assoc]
    by_cases h1 : c = '"'
    · subst h1
      simp [escapeChar, parseStringBody, unescapeSimple, ih]
    · by_cases h2 : c = '\\'
      · subst h2
        simp [escapeChar, parseStringBody, unescapeSimple, ih]
      · by_cases h3 : c = '\n'
        · subst h3
          simp [escapeChar, parseStringBody, unescapeSimple, ih]
        · by_cases h4 : c = '\r'
          · subst h4
            simp [escapeChar, parseStringBody, unescapeSimple, ih]
          · by_cases h5 : c = '\t'
            · subst h5
              simp [escapeChar, parseStringBody, unescapeSimple, ih]
            · by_cases h6 : c.toNat < 32 ∨ c = '<' ∨ c = '>' ∨ c = '&'
              · rw [escapeChar, if_neg h1, if_neg h2, if_neg h3, if_neg h4,
                  if_neg h5, if_pos h6]
                have hle : c.toNat ≤ 62 := by
                  rcases h6 with h | h | h | h
                  · omega
                  · subst h; decide
                  · subst h; decide
                  · subst h; decide
                simp only [List.cons_append, List.nil_append]
                rw [parseStringBody_hex _ _ _ _ 0 0 (c.toNat / 16) (c.toNat % 16) _
                  (by decide) (by decide)
                  (hexVal_hexDigitChar (c.toNat / 16) (by omega))
                  (hexVal_hexDigitChar (c.toNat % 16) (by omega)), ih]
                rw [show ((0 * 16 + 0) * 16 + c.toNat / 16) * 16 + c.toNat % 16 =
                    c.toNat from by omega]
                rw [if_neg (show ¬ (55296 ≤ c.toNat ∧ c.toNat < 57344) from by omega)]
                rw [Char.ofNat_toNat]
                rfl
              · by_cases h7 : c.toNat = 8232 ∨ c.toNat = 8233
                · rw [escapeChar, if_neg h1, if_neg h2, if_neg h3, if_neg h4,
                    if_neg h5, if_neg h6, if_pos h7]
                  simp only [List.cons_append, List.nil_append]
                  rw [parseStringBody_hex _ _ _ _ 2 0 2 (c.toNat % 16) _
                    (by decide) (by decide) (by decide)
                    (hexVal_hexDigitChar (c.toNat % 16) (by omega)), ih]
                  rw [show ((2 * 16 + 0) * 16 + 2) * 16 + c.toNat % 16 =
                      c.toNat from by omega]
                  rw [if_neg (show ¬ (55296 ≤ c.toNat ∧ c.toNat < 57344) from by omega)]
                  rw [Char.ofNat_toNat]
                  rfl
                · rw [escapeChar, if_neg h1, if_neg h2, if_neg h3, if_neg h4,
                    if_neg h5, if_neg h6, if_neg h7]
                  rw [List.cons_append, List.nil_append,
                    parseStringBody_cons_other c _ h1 h2, ih]
                  rfl

theorem skipWs_cons (c : Char) (s : List Char) (h : isJsonWs c = false) :
    skipWs (c :: s) = c :: s := by
  simp [skipWs, List.dropWhile, h]

theorem parseJsonString_cons_quote (t : List Char) :
    parseJsonString ('"' :: t) = parseStringBody t := by
  simp [parseJsonString]

theorem parseStringBody_roleKey (t : List Char) :
    parseStringBody ('r' :: 'o' :: 'l' :: 'e' :: '"' :: t) =
      some (['r', 'o', 'l', 'e'], t) := by
  rw [parseStringBody_cons_other 'r' _ (by decide) (by decide),
    parseStringBody_cons_other 'o' _ (by decide) (by decide),
    parseStringBody_cons_other 'l' _ (by decide) (by decide),
    parseStringBody_cons_other 'e' _ (by decide) (by decide),
    parseStringBody_quote]
  rfl

theorem parseStringBody_contentKey (t : List Char) :
    parseStringBody ('c' :: 'o' :: 'n' :: 't' :: 'e' :: 'n' :: 't' :: '"' :: t) =
      some (['c', 'o', 'n', 't', 'e', 'n', 't'], t) := by
  rw [parseStringBody_cons_other 'c' _ (by decide) (by decide),
    parseStringBody_cons_other 'o' _ (by decide) (by decide),
    parseStringBody_cons_other 'n' _ (by decide) (by decide),
    parseStringBody_cons_other 't' _ (by decide) (by decide),
    parseStringBody_cons_other 'e' _ (by decide) (by decide),
    parseStringBody_cons_other 'n' _ (by decide) (by decide),
    parseStringBody_cons_other 't' _ (by decide) (by decide),
    parseStringBody_quote]
  rfl

theorem parsePairs_encode (fuel : Nat) (hf : 2 ≤ fuel) (acc : Message) (r ct rest : List Char) :
    parsePairs fuel acc
      (roleKey ++ (encodeString r ++ (contentKey ++ (encodeString ct ++ ('}' :: rest))))) =
      some ({ role := ⟨r⟩, content := ⟨ct⟩ }, rest) := by
  obtain ⟨f, rfl⟩ : ∃ f, fuel = f + 2 := ⟨fuel - 2, by omega⟩
  simp only [roleKey, contentKey, encodeString, List.cons_append, List.nil_append,
    List.append_assoc, List.singleton_append]
  simp [parsePairs, parseJsonString_cons_quote, skipWs, List.dropWhile, isJsonWs,
    parseStringBody_roleKey, parseStringBody_contentKey, parseStringBody_escape]

theorem parseObject_encode (fuel : Nat) (hf : 2 ≤ fuel) (m : Message)
    (rest : List Char) :
    parseObject fuel (encodeMessage m ++ rest) = some (m, rest) := by
  have hp := parsePairs_encode fuel hf messageZero m.role.data m.content.data rest
  rw [parseObject]
  simp only [encodeMessage, List.cons_append, List.append_assoc]
  rw [skipWs_cons _ _ (by decide)]
  simp only [roleKey, contentKey, encodeString, List.cons_append, List.nil_append,
    List.append_assoc, List.singleton_append] at hp ⊢
  rw [skipWs_cons _ _ (by decide)]
  simp [hp]

theorem parseElems_encode (ms : List Message) :
    ∀ fuel : Nat, ms.length + 2 ≤ fuel → ∀ (m : Message) (rest : List Char),
    parseElems fuel (encodeMessage m ++ (encodeElemsTail ms ++ rest)) =
      some (m :: ms, rest) := by
  induction ms with
  | nil =>
    intro fuel hf m rest
    obtain ⟨f, rfl⟩ : ∃ f, fuel = f + 1 := ⟨fuel - 1, by omega⟩
    rw [parseElems]
    simp only [encodeElemsTail, List.singleton_append]
    rw [parseObject_encode (f + 1) (by omega) m (']' :: rest)]
    simp only []
    rw [skipWs_cons _ _ (by decide)]
    simp
  | cons m2 ms' ih =>
    intro fuel hf m rest
    obtain ⟨f, rfl⟩ : ∃ f, fuel = f + 1 := ⟨fuel - 1, by omega⟩
    rw [parseElems]
    simp only [encodeElemsTail, List.cons_append, List.append_assoc]
    rw [parseObject_encode (f + 1) (by omega) m
      (',' :: (encodeMessage m2 ++ (encodeElemsTail ms' ++ rest)))]
    simp only []
    rw [skipWs_cons _ _ (by decide)]
    have hlen : ms'.length + 2 ≤ f := by
      simp only [List.length_cons] at hf
      omega
    simp [ih f hlen m2 rest]

theorem encodeElemsTail_length_ge (ms : List Message) :
    ms.length + 1 ≤ (encodeElemsTail ms).length := by
  induction ms with
  | nil => simp [encodeElemsTail]
  | cons m ms' ih =>
    simp only [encodeElemsTail, List.length_cons, List.length_append,
      encodeMessage]
    simp only [List.length_cons, List.length_append] at ih ⊢
    omega

theorem unmarshal_marshal (history : List Message) :
    unmarshalHistory (marshalHistory history) = some history := by
  cases history with
  | nil => rfl
  | cons m ms =>
    rw [marshalHistory, unmarshalHistory]
    simp only [encodeHistory]
    rw [skipWs_cons _ _ (by decide)]
    simp only [encodeMessage, List.cons_append, List.append_assoc]
    rw [skipWs_cons _ _ (by decide)]
    have h1 := encodeElemsTail_length_ge ms
    have key := parseElems_encode ms
      (roleKey.length +
          ((encodeString m.role.data).length +
            (contentKey.length +
              ((encodeString m.content.data).length +
                ((encodeElemsTail ms).length + 1)))) + 1 + 1)
      (by omega) m []
    rw [List.append_nil] at key
    simp only [encodeMessage, List.cons_append, List.append_assoc,
      List.nil_append] at key
    simp [skipWs, key]

/-- Claim C9: serialising any conversation history to the JSON history-file
format and reloading that text reproduces the identical ordered sequence of
messages, every role and content preserved exactly; in particular reloading
what `Model.saveHistory` wrote restores the client's history. -/
theorem claim9_history_roundtrip (history : List Message) (m : Model) :
    unmarshalHistory (marshalHistory history) = some history ∧
    loadHistory (saveHistory m).2 = some m.client.history :=
  ⟨unmarshal_marshal history, unmarshal_marshal m.client.history⟩
